import Mathlib

set_option maxRecDepth 20000

/-!
Shallow embedding of the poker-hand detection engine of
`src/cli.py` (class `PokerHandAnalyzer`): the pattern catalog
(`hand_start_patterns`, `card_patterns`, `action_patterns`), the segment
scorer and candidate gate of `detect_hands`, and the report computations of
`generate_report`.  Python's `re` searching is embedded by a small
backtracking regular-expression engine whose parse results are ordered by
Python's backtracking priority (alternation left first, quantifiers
greedy), so `re.search` is "some parse exists at some start position" and
`re.findall` counting walks left to right taking the priority match at each
position, exactly as CPython does for these patterns (none of which can
match the empty string).  Python floats are embedded as rationals.
-/

/-- A transcript segment: `{"text": …, "start": …, "end": …}` from the
transcript JSON.  The field `stop` models the source's `end` key (a Lean
keyword). -/
structure Segment where
  text : String
  start : ℚ
  stop : ℚ
deriving DecidableEq, Repr

instance : Inhabited Segment :=
  ⟨⟨"", 0, 0⟩⟩

/-- The transcript record built by `transcribe_audio` and consumed by
`detect_hands` / `generate_report`. -/
structure Transcript where
  file : String
  duration : ℚ
  language : String
  text : String
  segments : List Segment
  processed_at : String
deriving DecidableEq, Repr

/-- The per-segment per-family scores stored under `"scores"` on each
detected hand. -/
structure Scores where
  hand_start : Nat
  cards : Nat
  actions : Nat
  context : Nat
deriving DecidableEq, Repr

/-- A detected hand record appended by `detect_hands`. -/
structure Candidate where
  timestamp : ℚ
  duration : ℚ
  text : String
  confidence : ℚ
  scores : Scores
deriving DecidableEq, Repr

/-- Abstract syntax of the regular expressions used by the pattern
catalog: literal characters, character classes (for `\d`, `\s`, `.`),
concatenation, prioritized alternation and greedy star. -/
inductive Regex where
  | fail : Regex
  | eps : Regex
  | lit : Char → Regex
  | cls : (Char → Bool) → Regex
  | seq : Regex → Regex → Regex
  | alt : Regex → Regex → Regex
  | star : Regex → Regex

/-- Greedy iteration for `star`: results of iterating the body (longest,
i.e. highest-priority, first), with the empty iteration last.  Only
progress-making body matches are iterated (every starred body in the
catalog consumes at least one character, as in CPython's engine which
refuses empty loop iterations).  Fuel bounds the recursion by the input
length. -/
def parseStar (f : List Char → List (List Char)) : Nat → List Char → List (List Char)
  | 0, s => [s]
  | fuel + 1, s =>
    (((f s).filter (fun t => t.length < s.length)).flatMap (parseStar f fuel)) ++ [s]

/-- All ways the regex can match a prefix of the input, each result the
remaining suffix, ordered by Python's backtracking priority: alternation
prefers its left branch, star is greedy. -/
def Regex.parse : Regex → List Char → List (List Char)
  | .fail, _ => []
  | .eps, s => [s]
  | .lit _, [] => []
  | .lit c, a :: s => if a = c then [s] else []
  | .cls _, [] => []
  | .cls p, a :: s => if p a then [s] else []
  | .seq r1 r2, s => (r1.parse s).flatMap r2.parse
  | .alt r1 r2, s => r1.parse s ++ r2.parse s
  | .star r, s => parseStar (fun t => r.parse t) s.length s

/-- Python `re.search(pattern, s) is not None`: some start position admits
a match. -/
def rsearch (r : Regex) : List Char → Bool
  | [] => !(r.parse []).isEmpty
  | a :: t => !(r.parse (a :: t)).isEmpty || rsearch r t

/-- Worker for `findallCount`: scan left to right; at each position take
the engine's (priority) match if any, count it and resume after it,
advancing one character on failure or on an empty match, as
`re.findall` does. -/
def findallAux (r : Regex) : Nat → List Char → Nat
  | 0, _ => 0
  | fuel + 1, s =>
    match (r.parse s).head? with
    | some rest =>
      if rest.length < s.length then 1 + findallAux r fuel rest
      else
        match s with
        | [] => 1
        | _ :: t => 1 + findallAux r fuel t
    | none =>
      match s with
      | [] => 0
      | _ :: t => findallAux r fuel t

/-- Python `len(re.findall(pattern, s))`: the number of non-overlapping
matches, scanning left to right. -/
def findallCount (r : Regex) (s : List Char) : Nat :=
  findallAux r (s.length + 1) s

/-- Literal string regex. -/
def rstr (s : String) : Regex :=
  s.data.foldr (fun c r => Regex.seq (Regex.lit c) r) Regex.eps

/-- Left-priority alternation of a list, mirroring `(?:x|y|…)`. -/
def ralts : List Regex → Regex
  | [] => Regex.fail
  | [r] => r
  | r :: rs => Regex.alt r (ralts rs)

/-- Concatenation of a list of regexes. -/
def rcats (l : List Regex) : Regex :=
  l.foldr Regex.seq Regex.eps

/-- Greedy `r?`. -/
def ropt (r : Regex) : Regex :=
  Regex.alt r Regex.eps

/-- Greedy `r+`. -/
def rplus (r : Regex) : Regex :=
  Regex.seq r (Regex.star r)

/-- Alternation of literal strings. -/
def strAlts (l : List String) : Regex :=
  ralts (l.map rstr)

/-- Python `\s` (ASCII whitespace as it occurs in transcripts). -/
def wsR : Regex :=
  Regex.cls (fun c => c == ' ' || c == '\t' || c == '\n' || c == '\x0d' || c == '\x0b' || c == '\x0c')

/-- Python `\d`. -/
def digitR : Regex :=
  Regex.cls Char.isDigit

/-- Python `.` (any character but newline). -/
def dotR : Regex :=
  Regex.cls (fun c => c != '\n')

/-- Python `\s+`. -/
def wsPlus : Regex :=
  rplus wsR

/-- Python `\s*`. -/
def wsStar : Regex :=
  Regex.star wsR

/-- A word with optional plural `s`, e.g. `comes?`. -/
def sOpt (w : String) : Regex :=
  Regex.seq (rstr w) (ropt (Regex.lit 's'))

/-- Pattern 1 of `hand_start_patterns`:
`(?:i|we|he|she|they|villain|hero|player)\s+(?:have|had|got dealt|was dealt|held|pick up)\s+(?:pocket|hole cards?)`. -/
def hsP1 : Regex :=
  rcats [strAlts ["i", "we", "he", "she", "they", "villain", "hero", "player"], wsPlus,
    strAlts ["have", "had", "got dealt", "was dealt", "held", "pick up"], wsPlus,
    ralts [rstr "pocket", Regex.seq (rstr "hole card") (ropt (Regex.lit 's'))]]

/-- Pattern 2 of `hand_start_patterns`:
`(?:with|holding|dealt)\s+(?:pocket|ace|king|queen|jack|\d+)`. -/
def hsP2 : Regex :=
  rcats [strAlts ["with", "holding", "dealt"], wsPlus,
    ralts [rstr "pocket", rstr "ace", rstr "king", rstr "queen", rstr "jack", rplus digitR]]

/-- Pattern 3 of `hand_start_patterns`:
`(?:preflop|pre-flop).*(?:raise|call|fold|all.?in)`. -/
def hsP3 : Regex :=
  rcats [strAlts ["preflop", "pre-flop"], Regex.star dotR,
    ralts [rstr "raise", rstr "call", rstr "fold", rcats [rstr "all", ropt dotR, rstr "in"]]]

/-- Pattern 4 of `hand_start_patterns`:
`(?:flop|turn|river)\s+(?:comes?|brings?|is|was)`. -/
def hsP4 : Regex :=
  rcats [strAlts ["flop", "turn", "river"], wsPlus,
    ralts [sOpt "come", sOpt "bring", rstr "is", rstr "was"]]

/-- Pattern 5 of `hand_start_patterns`: `board\s+(?:comes?|is|was|reads?)`. -/
def hsP5 : Regex :=
  rcats [rstr "board", wsPlus, ralts [sOpt "come", rstr "is", rstr "was", sOpt "read"]]

/-- Pattern 6 of `hand_start_patterns`:
`hand\s+(?:analysis|breakdown|review|discussion)`. -/
def hsP6 : Regex :=
  rcats [rstr "hand", wsPlus, strAlts ["analysis", "breakdown", "review", "discussion"]]

/-- Pattern 7 of `hand_start_patterns`:
`(?:let's|we'll|i'll)\s+(?:talk about|discuss|analyze|break down|look at)\s+(?:this|a|the)\s+hand`. -/
def hsP7 : Regex :=
  rcats [strAlts ["let\x27s", "we\x27ll", "i\x27ll"], wsPlus,
    strAlts ["talk about", "discuss", "analyze", "break down", "look at"], wsPlus,
    strAlts ["this", "a", "the"], wsPlus, rstr "hand"]

/-- The `hand_start_patterns` list of `detect_hands`. -/
def hand_start_patterns : List Regex :=
  [hsP1, hsP2, hsP3, hsP4, hsP5, hsP6, hsP7]

/-- Pattern 1 of `card_patterns`:
`(?:ace|king|queen|jack|\d+)(?:\s+of\s+(?:hearts|diamonds|clubs|spades))?`. -/
def cdP1 : Regex :=
  rcats [ralts [rstr "ace", rstr "king", rstr "queen", rstr "jack", rplus digitR],
    ropt (rcats [wsPlus, rstr "of", wsPlus, strAlts ["hearts", "diamonds", "clubs", "spades"]])]

/-- Pattern 2 of `card_patterns`:
`pocket\s+(?:aces|kings|queens|jacks|tens|nines|eights|sevens|sixes|fives|fours|threes|twos|deuces)`. -/
def cdP2 : Regex :=
  rcats [rstr "pocket", wsPlus,
    strAlts ["aces", "kings", "queens", "jacks", "tens", "nines", "eights", "sevens",
      "sixes", "fives", "fours", "threes", "twos", "deuces"]]

/-- Pattern 3 of `card_patterns`: `(?:suited|offsuit)\s+(?:ace|king|queen|jack)`. -/
def cdP3 : Regex :=
  rcats [strAlts ["suited", "offsuit"], wsPlus, strAlts ["ace", "king", "queen", "jack"]]

/-- One rank letter or digit of pattern 4 of `card_patterns`:
`(?:A|K|Q|J|T|\d)`.  The letters are upper case in the source even though
the text is lowercased before matching, so only the `\d` branch can ever
match. -/
def rankR : Regex :=
  ralts [Regex.lit 'A', Regex.lit 'K', Regex.lit 'Q', Regex.lit 'J', Regex.lit 'T', digitR]

/-- Optional suit letter of pattern 4 of `card_patterns`: `(?:s|h|d|c)?`. -/
def suitOptR : Regex :=
  ropt (ralts [Regex.lit 's', Regex.lit 'h', Regex.lit 'd', Regex.lit 'c'])

/-- Pattern 4 of `card_patterns`:
`(?:A|K|Q|J|T|\d)(?:s|h|d|c)?\s*(?:A|K|Q|J|T|\d)(?:s|h|d|c)?`. -/
def cdP4 : Regex :=
  rcats [rankR, suitOptR, wsStar, rankR, suitOptR]

/-- The `card_patterns` list of `detect_hands`. -/
def card_patterns : List Regex :=
  [cdP1, cdP2, cdP3, cdP4]

/-- Pattern 1 of `action_patterns`:
`(?:raises?|calls?|folds?|checks?|bets?|all.?in|shoves?|jams?)\s+(?:to\s+)?\$?\d+`. -/
def acP1 : Regex :=
  rcats [ralts [sOpt "raise", sOpt "call", sOpt "fold", sOpt "check", sOpt "bet",
      rcats [rstr "all", ropt dotR, rstr "in"], sOpt "shove", sOpt "jam"], wsPlus,
    ropt (rcats [rstr "to", wsPlus]), ropt (Regex.lit '$'), rplus digitR]

/-- Pattern 2 of `action_patterns`: `(?:three|3).?bet(?:s|ting)?`. -/
def acP2 : Regex :=
  rcats [ralts [rstr "three", Regex.lit '3'], ropt dotR, rstr "bet",
    ropt (ralts [Regex.lit 's', rstr "ting"])]

/-- Pattern 3 of `action_patterns`: `(?:four|4).?bet(?:s|ting)?`. -/
def acP3 : Regex :=
  rcats [ralts [rstr "four", Regex.lit '4'], ropt dotR, rstr "bet",
    ropt (ralts [Regex.lit 's', rstr "ting"])]

/-- Pattern 4 of `action_patterns`: `check.?raise`. -/
def acP4 : Regex :=
  rcats [rstr "check", ropt dotR, rstr "raise"]

/-- Pattern 5 of `action_patterns`: `continuation\s+bet|c.?bet` (a top-level
alternation). -/
def acP5 : Regex :=
  Regex.alt (rcats [rstr "continuation", wsPlus, rstr "bet"])
    (rcats [Regex.lit 'c', ropt dotR, rstr "bet"])

/-- The `action_patterns` list of `detect_hands`. -/
def action_patterns : List Regex :=
  [acP1, acP2, acP3, acP4, acP5]

/-- Python `s.lower()` followed by viewing the string as its character
list (the transcript texts are ASCII, where `str.lower` is per-character). -/
def lowerData (s : String) : List Char :=
  s.data.map Char.toLower

/-- Python `w in s` on character lists (substring test). -/
def containsSub (w : List Char) : List Char → Bool
  | [] => List.isPrefixOf w []
  | a :: t => List.isPrefixOf w (a :: t) || containsSub w t

/-- The `hand_start_score` loop of `detect_hands`: `+2` for every pattern
of `hand_start_patterns` that `re.search` finds in the lowercased segment
text. -/
def handStartScoreText (low : List Char) : Nat :=
  hand_start_patterns.foldl (fun acc p => if rsearch p low then acc + 2 else acc) 0

/-- The `card_score` loop of `detect_hands`: `+ len(re.findall(...))` for
every pattern of `card_patterns`. -/
def cardScoreText (low : List Char) : Nat :=
  card_patterns.foldl (fun acc p => acc + findallCount p low) 0

/-- The `action_score` loop of `detect_hands`: `+1` for every pattern of
`action_patterns` that `re.search` finds. -/
def actionScoreText (low : List Char) : Nat :=
  action_patterns.foldl (fun acc p => if rsearch p low then acc + 1 else acc) 0

/-- The context keywords checked on the 3-segment window:
`["preflop", "flop", "turn", "river", "showdown"]`. -/
def context_keywords : List (List Char) :=
  [String.data "preflop", String.data "flop", String.data "turn",
    String.data "river", String.data "showdown"]

/-- The `context_window` of segment `i`: previous segment text (if any),
the segment text, next segment text (if any), in that order. -/
def contextWindow (segments : List Segment) (i : Nat) : List String :=
  (if 0 < i then [(segments.getD (i - 1) default).text] else []) ++
    [(segments.getD i default).text] ++
    (if i + 1 < segments.length then [(segments.getD (i + 1) default).text] else [])

/-- The `context_score` of segment `i`: 1 if any context keyword occurs in
the lowercased space-joined context window, else 0. -/
def contextScoreAt (segments : List Segment) (i : Nat) : Nat :=
  let context_text := lowerData (String.intercalate " " (contextWindow segments i))
  if context_keywords.any (fun w => containsSub w context_text) then 1 else 0

/-- `hand_start_score` of segment `i`. -/
def handStartAt (segments : List Segment) (i : Nat) : Nat :=
  handStartScoreText (lowerData (segments.getD i default).text)

/-- `card_score` of segment `i`. -/
def cardsAt (segments : List Segment) (i : Nat) : Nat :=
  cardScoreText (lowerData (segments.getD i default).text)

/-- `action_score` of segment `i`. -/
def actionsAt (segments : List Segment) (i : Nat) : Nat :=
  actionScoreText (lowerData (segments.getD i default).text)

/-- `total_score = hand_start_score + card_score + action_score + context_score`. -/
def totalAt (segments : List Segment) (i : Nat) : Nat :=
  handStartAt segments i + cardsAt segments i + actionsAt segments i +
    contextScoreAt segments i

/-- Python's two-argument `min`, used as `min(total_score / 8.0, 1.0)`. -/
def ratMin (a b : ℚ) : ℚ :=
  if a ≤ b then a else b

/-- `confidence = min(total_score / 8.0, 1.0)` for segment `i`. -/
def confidenceAt (segments : List Segment) (i : Nat) : ℚ :=
  ratMin ((totalAt segments i : ℚ) / 8) 1

/-- The body of the `detect_hands` loop for segment `i`: the appended hand
record when the acceptance gate
`total_score >= 3 and (card_score >= 1 or hand_start_score >= 1)` passes,
`none` otherwise. -/
def candidateAt (segments : List Segment) (i : Nat) : Option Candidate :=
  let seg := segments.getD i default
  if 3 ≤ totalAt segments i ∧ (1 ≤ cardsAt segments i ∨ 1 ≤ handStartAt segments i) then
    some
      { timestamp := seg.start
        duration := seg.stop - seg.start
        text := seg.text
        confidence := confidenceAt segments i
        scores :=
          { hand_start := handStartAt segments i
            cards := cardsAt segments i
            actions := actionsAt segments i
            context := contextScoreAt segments i } }
  else none

/-- The `hands_detected` list before sorting: one forward pass over the
segments, keeping gate-passing records in discovery order. -/
def rawCandidates (segments : List Segment) : List Candidate :=
  (List.range segments.length).filterMap (candidateAt segments)

/-- Insert into a confidence-descending list, keeping the inserted element
before later-discovered elements of equal confidence (the stable placement
of Python's `list.sort`). -/
def insertDesc (c : Candidate) : List Candidate → List Candidate
  | [] => [c]
  | d :: ds => if d.confidence ≤ c.confidence then c :: d :: ds else d :: insertDesc c ds

/-- Stable sort by confidence descending:
`hands_detected.sort(key=lambda x: x["confidence"], reverse=True)`
(Python's sort is stable; any stable sort computes the same list). -/
def sortDesc : List Candidate → List Candidate
  | [] => []
  | c :: cs => insertDesc c (sortDesc cs)

/-- `detect_hands(transcript_data)`: score every segment, keep the
gate-passing records, sort by confidence descending (stable). -/
def detect_hands (transcript_data : Transcript) : List Candidate :=
  sortDesc (rawCandidates transcript_data.segments)

/-- Python `a // b` for floats (floor division). -/
def pyFloorDiv (a b : ℚ) : ℚ :=
  (Rat.floor (a / b) : ℚ)

/-- Python `a % b` for floats: `a - b * (a // b)`. -/
def pyMod (a b : ℚ) : ℚ :=
  a - b * pyFloorDiv a b

/-- Python `int(x)` on a float: truncation toward zero. -/
def pyInt (x : ℚ) : ℤ :=
  if 0 ≤ x then Rat.floor x else Rat.ceil x

/-- Zero-padding to width 2, Python's `{n:02d}`. -/
def pad2 (n : ℤ) : String :=
  let s := toString n
  if s.length < 2 then "0" ++ s else s

/-- The timestamp rendering of `generate_report`:
`int(timestamp // 60)` `:` `int(timestamp % 60)` zero-padded to 2 digits. -/
def formatTimestamp (t : ℚ) : String :=
  toString (pyInt (pyFloorDiv t 60)) ++ ":" ++ pad2 (pyInt (pyMod t 60))

/-- One per-hand block of the report (`### Hand {rank}` section): the
values interpolated by the f-string of `generate_report`. -/
structure HandEntry where
  rank : Nat
  timestamp_min : ℤ
  timestamp_sec : ℤ
  timestamp_str : String
  confidence : ℚ
  text : String
deriving DecidableEq, Repr

/-- The report artifact produced by `generate_report`: the header values,
the summary values and the per-hand blocks, in order. -/
structure Report where
  file : String
  duration : ℚ
  language : String
  processed_at : String
  total_hands : Nat
  avg_confidence : ℚ
  hand_entries : List HandEntry
deriving DecidableEq, Repr

/-- The per-hand block for `hand` at 1-based rank `rank`, mirroring
`timestamp_min = int(hand['timestamp'] // 60)`,
`timestamp_sec = int(hand['timestamp'] % 60)` and the entry f-string
(`hand['text'].strip()` for the text line). -/
def mkEntry (rank : Nat) (hand : Candidate) : HandEntry :=
  { rank := rank
    timestamp_min := pyInt (pyFloorDiv hand.timestamp 60)
    timestamp_sec := pyInt (pyMod hand.timestamp 60)
    timestamp_str := formatTimestamp hand.timestamp
    confidence := hand.confidence
    text := hand.text.trim }

/-- `generate_report(transcript_data, hands_detected)`: average confidence
is 0.00 for an empty list, else the mean; one entry per hand with 1-based
rank, in the given (ranked) order. -/
def generate_report (transcript_data : Transcript) (hands_detected : List Candidate) :
    Report :=
  let avg_confidence : ℚ :=
    if hands_detected.isEmpty then 0
    else ((hands_detected.map (fun h => h.confidence)).sum) / (hands_detected.length : ℚ)
  { file := transcript_data.file
    duration := transcript_data.duration
    language := transcript_data.language
    processed_at := transcript_data.processed_at
    total_hands := hands_detected.length
    avg_confidence := avg_confidence
    hand_entries := hands_detected.enum.map (fun p => mkEntry (p.1 + 1) p.2) }

/-- The three-segment transcript of the specification's scenario. -/
def scenarioSegs : List Segment :=
  [⟨"I had pocket aces preflop", 0, 5⟩, ⟨"he raises to 200", 5, 8⟩,
    ⟨"flop comes king high", 8, 12⟩]

/-- The scenario transcript wrapped in transcript metadata. -/
def scenarioT : Transcript :=
  ⟨"episode.mp3", 12, "en", "I had pocket aces preflop he raises to 200 flop comes king high",
    scenarioSegs, "2024-01-01T00:00:00"⟩

/-- A two-segment transcript whose first segment has empty text while its
successor mentions the flop. -/
def emptySegs : List Segment :=
  [⟨"", 0, 1⟩, ⟨"flop comes", 1, 2⟩]

/-- A single-segment transcript whose segment passes the acceptance gate. -/
def oneSegs : List Segment :=
  [⟨"flop comes king high", 8, 12⟩]

/-- The single-segment transcript wrapped in transcript metadata. -/
def oneT : Transcript :=
  ⟨"short.mp3", 12, "en", "flop comes king high", oneSegs, "2024-01-01T00:00:00"⟩

/-- The candidate record detected for the single segment of `oneSegs`. -/
def oneCand : Candidate :=
  (candidateAt oneSegs 0).get (by decide)

/-- The candidate record detected for segment 0 of the scenario. -/
def scenCand0 : Candidate :=
  (candidateAt scenarioSegs 0).get (by decide)

/-- The candidate record detected for segment 1 of the scenario. -/
def scenCand1 : Candidate :=
  (candidateAt scenarioSegs 1).get (by decide)

theorem mem_insertDesc {a c : Candidate} {l : List Candidate} :
    a ∈ insertDesc c l ↔ a = c ∨ a ∈ l := by
  induction l with
  | nil => simp [insertDesc]
  | cons d ds ih =>
    rw [insertDesc]
    by_cases hcd : d.confidence ≤ c.confidence
    · rw [if_pos hcd]
      simp [List.mem_cons]
    · rw [if_neg hcd]
      simp only [List.mem_cons, ih]
      tauto

theorem mem_sortDesc {a : Candidate} {l : List Candidate} :
    a ∈ sortDesc l ↔ a ∈ l := by
  induction l with
  | nil => simp [sortDesc]
  | cons c cs ih =>
    rw [sortDesc]
    simp only [mem_insertDesc, ih, List.mem_cons]

theorem length_insertDesc (c : Candidate) (l : List Candidate) :
    (insertDesc c l).length = l.length + 1 := by
  induction l with
  | nil => rfl
  | cons d ds ih =>
    rw [insertDesc]
    by_cases hcd : d.confidence ≤ c.confidence
    · rw [if_pos hcd]; rfl
    · rw [if_neg hcd]; simp [ih]

theorem length_sortDesc (l : List Candidate) :
    (sortDesc l).length = l.length := by
  induction l with
  | nil => rfl
  | cons c cs ih =>
    rw [sortDesc, length_insertDesc, ih]
    rfl

theorem pairwise_insertDesc (c : Candidate) (l : List Candidate)
    (h : l.Pairwise (fun a b => b.confidence ≤ a.confidence)) :
    (insertDesc c l).Pairwise (fun a b => b.confidence ≤ a.confidence) := by
  induction l with
  | nil => simp [insertDesc]
  | cons d ds ih =>
    rw [insertDesc]
    rcases List.pairwise_cons.mp h with ⟨hd, hds⟩
    by_cases hcd : d.confidence ≤ c.confidence
    · rw [if_pos hcd]
      refine List.pairwise_cons.mpr ⟨?_, h⟩
      intro x hx
      rcases List.mem_cons.mp hx with rfl | hx
      · exact hcd
      · exact le_trans (hd x hx) hcd
    · rw [if_neg hcd]
      refine List.pairwise_cons.mpr ⟨?_, ih hds⟩
      intro x hx
      rcases mem_insertDesc.mp hx with rfl | hx
      · exact le_of_lt (lt_of_not_le hcd)
      · exact hd x hx

theorem pairwise_sortDesc (l : List Candidate) :
    (sortDesc l).Pairwise (fun a b => b.confidence ≤ a.confidence) := by
  induction l with
  | nil => simp [sortDesc]
  | cons c cs ih =>
    rw [sortDesc]
    exact pairwise_insertDesc c _ ih

theorem filter_insertDesc (q : ℚ) (c : Candidate) (l : List Candidate) :
    (insertDesc c l).filter (fun x => decide (x.confidence = q)) =
      ((c :: l).filter (fun x => decide (x.confidence = q))) := by
  induction l with
  | nil => rfl
  | cons d ds ih =>
    rw [insertDesc]
    by_cases hcd : d.confidence ≤ c.confidence
    · rw [if_pos hcd]
    · rw [if_neg hcd]
      by_cases hc : c.confidence = q
      · by_cases hdq : d.confidence = q
        · exact absurd (le_of_eq (hdq.trans hc.symm)) hcd
        · simp only [List.filter_cons, ih]
          simp [hdq, hc]
      · simp only [List.filter_cons, ih]
        simp [hc]

theorem filter_sortDesc (q : ℚ) (l : List Candidate) :
    (sortDesc l).filter (fun x => decide (x.confidence = q)) =
      (l.filter (fun x => decide (x.confidence = q))) := by
  induction l with
  | nil => rfl
  | cons c cs ih =>
    rw [sortDesc, filter_insertDesc]
    simp only [List.filter_cons, ih]

theorem confidenceAt_eq_min (segments : List Segment) (i : Nat) :
    confidenceAt segments i = min ((totalAt segments i : ℚ) / 8) 1 := by
  rw [confidenceAt, ratMin, min_def]

theorem confidenceAt_nonneg (segments : List Segment) (i : Nat) :
    0 ≤ confidenceAt segments i := by
  rw [confidenceAt, ratMin]
  split
  · positivity
  · norm_num

theorem confidenceAt_le_one (segments : List Segment) (i : Nat) :
    confidenceAt segments i ≤ 1 := by
  rw [confidenceAt, ratMin]
  split
  · assumption
  · exact le_refl 1

theorem confidenceAt_saturates (segments : List Segment) (i : Nat)
    (h : 8 ≤ totalAt segments i) : confidenceAt segments i = 1 := by
  rw [confidenceAt, ratMin]
  have h8 : (8 : ℚ) ≤ (totalAt segments i : ℚ) := by exact_mod_cast h
  split
  · rename_i h'
    have hle : (totalAt segments i : ℚ) ≤ 8 := by
      have := (div_le_one (by norm_num : (0:ℚ) < 8)).mp h'
      exact this
    have : (totalAt segments i : ℚ) = 8 := le_antisymm hle h8
    rw [this]
    norm_num
  · rfl

theorem contextScoreAt_le_one (segments : List Segment) (i : Nat) :
    contextScoreAt segments i ≤ 1 := by
  simp only [contextScoreAt]
  split
  · exact le_refl 1
  · exact Nat.zero_le 1

theorem foldl_add_two_even (low : List Char) (l : List Regex) :
    ∀ acc : Nat, acc % 2 = 0 →
      (l.foldl (fun acc p => if rsearch p low then acc + 2 else acc) acc) % 2 = 0 := by
  induction l with
  | nil =>
    intro acc h
    simpa using h
  | cons p ps ih =>
    intro acc h
    rw [List.foldl_cons]
    by_cases hp : rsearch p low
    · simp only [hp, if_true]
      exact ih (acc + 2) (by omega)
    · simp only [hp, if_false]
      exact ih acc h

theorem handStartScoreText_even (low : List Char) :
    handStartScoreText low % 2 = 0 := by
  rw [handStartScoreText]
  exact foldl_add_two_even low hand_start_patterns 0 rfl

theorem candidateAt_isSome_iff (segments : List Segment) (i : Nat) :
    (candidateAt segments i).isSome = true ↔
      (3 ≤ totalAt segments i ∧
        (1 ≤ cardsAt segments i ∨ 1 ≤ handStartAt segments i)) := by
  simp only [candidateAt]
  split
  · rename_i h
    simpa using h
  · rename_i h
    simpa using h

theorem candidateAt_eq_some_facts {segments : List Segment} {i : Nat} {c : Candidate}
    (h : candidateAt segments i = some c) :
    c.confidence = confidenceAt segments i ∧
      3 ≤ totalAt segments i ∧
      (1 ≤ cardsAt segments i ∨ 1 ≤ handStartAt segments i) ∧
      c.scores = ⟨handStartAt segments i, cardsAt segments i, actionsAt segments i,
        contextScoreAt segments i⟩ ∧
      c.timestamp = (segments.getD i default).start ∧
      c.text = (segments.getD i default).text := by
  simp only [candidateAt] at h
  split at h
  · rename_i hgate
    cases h
    exact ⟨rfl, hgate.1, hgate.2, rfl, rfl, rfl⟩
  · cases h

/-- Claim C2: for every segment of every transcript, `detect_hands`
promotes the segment to a candidate iff
`total_score >= 3 and (card_score >= 1 or hand_start_score >= 1)`; in
particular a segment with zero card score and zero hand-start score is
never promoted, whatever its action and context scores. -/
theorem acceptance_gate_iff (t : Transcript) (i : Nat)
    (h : i < t.segments.length) :
    ((candidateAt t.segments i).isSome = true ↔
      (3 ≤ totalAt t.segments i ∧
        (1 ≤ cardsAt t.segments i ∨ 1 ≤ handStartAt t.segments i))) ∧
      (cardsAt t.segments i = 0 → handStartAt t.segments i = 0 →
        candidateAt t.segments i = none) ∧
      ((candidateAt t.segments i).isSome = true →
        ∃ c, candidateAt t.segments i = some c ∧ c ∈ detect_hands t) := by
  refine ⟨candidateAt_isSome_iff _ _, ?_, ?_⟩
  · intro hc hh
    cases heq : candidateAt t.segments i with
    | none => rfl
    | some c =>
      have hs : (candidateAt t.segments i).isSome = true := by rw [heq]; rfl
      rcases (candidateAt_isSome_iff _ _).mp hs with ⟨_, hor⟩
      rcases hor with h1 | h1 <;> omega
  · intro hsome
    obtain ⟨c, hc⟩ := Option.isSome_iff_exists.mp hsome
    refine ⟨c, hc, ?_⟩
    rw [detect_hands]
    apply mem_sortDesc.mpr
    rw [rawCandidates]
    exact List.mem_filterMap.mpr ⟨i, List.mem_range.mpr h, hc⟩

/-- Witness for C2 at segment 0 of the scenario transcript. -/
theorem acceptance_gate_iff_witness :
    ((candidateAt scenarioT.segments 0).isSome = true ↔
      (3 ≤ totalAt scenarioT.segments 0 ∧
        (1 ≤ cardsAt scenarioT.segments 0 ∨ 1 ≤ handStartAt scenarioT.segments 0))) ∧
      (cardsAt scenarioT.segments 0 = 0 → handStartAt scenarioT.segments 0 = 0 →
        candidateAt scenarioT.segments 0 = none) ∧
      ((candidateAt scenarioT.segments 0).isSome = true →
        ∃ c, candidateAt scenarioT.segments 0 = some c ∧ c ∈ detect_hands scenarioT) :=
  acceptance_gate_iff scenarioT 0 (by decide)

/-- Claim C3: for every scored segment the confidence is
`min(total / 8.0, 1.0)`, hence lies in `[0, 1]` and equals `1.0` whenever
`total >= 8`; a promoted candidate carries exactly this confidence. -/
theorem confidence_normalization (t : Transcript) (i : Nat) :
    confidenceAt t.segments i = min ((totalAt t.segments i : ℚ) / 8) 1 ∧
      0 ≤ confidenceAt t.segments i ∧
      confidenceAt t.segments i ≤ 1 ∧
      (8 ≤ totalAt t.segments i → confidenceAt t.segments i = 1) ∧
      (∀ c : Candidate, candidateAt t.segments i = some c →
        c.confidence = confidenceAt t.segments i) := by
  refine ⟨confidenceAt_eq_min _ _, confidenceAt_nonneg _ _, confidenceAt_le_one _ _,
    confidenceAt_saturates _ _, ?_⟩
  intro c hc
  exact (candidateAt_eq_some_facts hc).1

/-- Witness for C3 at the single-segment transcript `oneT`. -/
theorem confidence_normalization_witness :
    oneCand.confidence = confidenceAt oneT.segments 0 :=
  (confidence_normalization oneT 0).2.2.2.2 oneCand (Option.some_get _).symm

/-- Claim C4: the candidate list of `detect_hands` is sorted by confidence
non-increasing, candidates of equal confidence keep their discovery
(transcript) order, and there are at most as many candidates as
segments. -/
theorem ranking_invariants (t : Transcript) :
    (detect_hands t).Pairwise (fun a b => b.confidence ≤ a.confidence) ∧
      (∀ q : ℚ, (detect_hands t).filter (fun c => decide (c.confidence = q)) =
        (rawCandidates t.segments).filter (fun c => decide (c.confidence = q))) ∧
      (detect_hands t).length ≤ t.segments.length := by
  refine ⟨pairwise_sortDesc _, fun q => filter_sortDesc q _, ?_⟩
  rw [detect_hands, length_sortDesc, rawCandidates]
  calc ((List.range t.segments.length).filterMap (candidateAt t.segments)).length
      ≤ (List.range t.segments.length).length := List.length_filterMap_le _ _
    _ = t.segments.length := List.length_range _

/-- Claim C6: `generate_report` on an empty candidate list reports an
average confidence of 0.00, a total hand count of zero and no per-hand
entry (and, being a total function of its inputs, neither raises nor
produces NaN). -/
theorem report_empty_candidates (t : Transcript) :
    (generate_report t []).avg_confidence = 0 ∧
      (generate_report t []).total_hands = 0 ∧
      (generate_report t []).hand_entries = [] :=
  ⟨rfl, rfl, rfl⟩

/-- Claim C7: `detect_hands` is deterministic and free of hidden state:
equal calls agree, and the result depends on the transcript only through
its segment list. -/
theorem detect_hands_deterministic :
    (∀ t : Transcript, detect_hands t = detect_hands t) ∧
      (∀ t1 t2 : Transcript, t1.segments = t2.segments →
        detect_hands t1 = detect_hands t2) := by
  refine ⟨fun _ => rfl, fun t1 t2 h => ?_⟩
  rw [detect_hands, detect_hands, h]

/-- Witness for C7: two calls on the scenario transcript agree. -/
theorem detect_hands_deterministic_witness :
    detect_hands scenarioT = detect_hands scenarioT :=
  detect_hands_deterministic.2 scenarioT scenarioT rfl

/-- Claim C9: the hand-start score is always even (each matching pattern
contributes exactly 2), so requiring `hand_start_score >= 1` in the gate is
the same as requiring `hand_start_score >= 2`. -/
theorem hand_start_score_even (segments : List Segment) (i : Nat) :
    handStartAt segments i % 2 = 0 ∧
      (1 ≤ handStartAt segments i ↔ 2 ≤ handStartAt segments i) := by
  have h : handStartAt segments i % 2 = 0 := by
    rw [handStartAt]
    exact handStartScoreText_even _
  exact ⟨h, by omega⟩

/-- Claim C5 as stated fails: a segment with empty text can still have a
nonzero context score, because the context window includes its neighbors.
In `emptySegs`, segment 0 has empty text yet context score 1 (the next
segment mentions the flop). -/
theorem empty_segment_context_cex :
    (emptySegs.getD 0 default).text = "" ∧
      ¬ (handStartAt emptySegs 0 = 0 ∧ cardsAt emptySegs 0 = 0 ∧
        actionsAt emptySegs 0 = 0 ∧ contextScoreAt emptySegs 0 = 0) := by
  refine ⟨rfl, ?_⟩
  intro hall
  have : contextScoreAt emptySegs 0 = 1 := by decide
  omega

/-- Claim C5 (amended): a segment with empty text has zero hand-start,
card and action scores, context score at most 1 (it can be 1 via a
neighbor), and is never promoted to a candidate. -/
theorem empty_segment_scores_amended (segments : List Segment) (i : Nat)
    (h : (segments.getD i default).text = "") :
    handStartAt segments i = 0 ∧ cardsAt segments i = 0 ∧
      actionsAt segments i = 0 ∧ contextScoreAt segments i ≤ 1 ∧
      candidateAt segments i = none := by
  have h1 : handStartAt segments i = 0 := by
    rw [handStartAt, h]
    decide
  have h2 : cardsAt segments i = 0 := by
    rw [cardsAt, h]
    decide
  have h3 : actionsAt segments i = 0 := by
    rw [actionsAt, h]
    decide
  have hcx := contextScoreAt_le_one segments i
  refine ⟨h1, h2, h3, hcx, ?_⟩
  simp only [candidateAt]
  rw [if_neg]
  intro hgate
  have htot := hgate.1
  rw [totalAt, h1, h2, h3] at htot
  omega

/-- Witness for the amended C5 at segment 0 of `emptySegs`. -/
theorem empty_segment_scores_amended_witness :
    handStartAt emptySegs 0 = 0 ∧ cardsAt emptySegs 0 = 0 ∧
      actionsAt emptySegs 0 = 0 ∧ contextScoreAt emptySegs 0 ≤ 1 ∧
      candidateAt emptySegs 0 = none :=
  empty_segment_scores_amended emptySegs 0 rfl

/-- Claim C10: every candidate produced by `detect_hands` has confidence
at least 3/8, since the gate requires a total score of at least 3 and the
confidence is `min(total / 8.0, 1.0)`. -/
theorem candidate_confidence_lower_bound (t : Transcript) (c : Candidate)
    (h : c ∈ detect_hands t) : 3 / 8 ≤ c.confidence := by
  rw [detect_hands] at h
  have h' := mem_sortDesc.mp h
  rw [rawCandidates] at h'
  rcases List.mem_filterMap.mp h' with ⟨i, _, hi⟩
  rcases candidateAt_eq_some_facts hi with ⟨hconf, htot, _⟩
  rw [hconf, confidenceAt, ratMin]
  have h3 : (3 : ℚ) ≤ (totalAt t.segments i : ℚ) := by exact_mod_cast htot
  split
  · gcongr
  · norm_num

/-- Witness for C10 at the single-segment transcript `oneT`. -/
theorem candidate_confidence_lower_bound_witness :
    3 / 8 ≤ oneCand.confidence :=
  candidate_confidence_lower_bound oneT oneCand (by
    have : detect_hands oneT = [oneCand] := rfl
    rw [this]
    exact List.mem_singleton.mpr rfl)

/-- Claim C8: the report renders every candidate timestamp as
`int(timestamp // 60)` `:` `int(timestamp % 60)` zero-padded to two
digits, and a candidate at timestamp 125.7 renders as `2:05`. -/
theorem timestamp_rendering :
    (∀ ts : ℚ, formatTimestamp ts =
      toString (pyInt (pyFloorDiv ts 60)) ++ ":" ++ pad2 (pyInt (pyMod ts 60))) ∧
      (∀ (rank : Nat) (hand : Candidate),
        (mkEntry rank hand).timestamp_min = pyInt (pyFloorDiv hand.timestamp 60) ∧
          (mkEntry rank hand).timestamp_sec = pyInt (pyMod hand.timestamp 60) ∧
          (mkEntry rank hand).timestamp_str = formatTimestamp hand.timestamp) ∧
      (∀ (t : Transcript) (hands : List Candidate),
        (generate_report t hands).hand_entries =
          hands.enum.map (fun p => mkEntry (p.1 + 1) p.2)) ∧
      formatTimestamp (1257 / 10) = "2:05" := by
  refine ⟨fun ts => rfl, fun rank hand => ⟨rfl, rfl, rfl⟩, fun t hands => rfl, ?_⟩
  have hdiv : pyFloorDiv (1257 / 10 : ℚ) 60 = 2 := by
    unfold pyFloorDiv
    have he : ((1257 / 10 : ℚ) / 60) = 1257 / 600 := by norm_num
    rw [he]
    have hf : Rat.floor ((1257 : ℚ) / 600) = 2 := by
      show ⌊(1257 / 600 : ℚ)⌋ = 2
      norm_num [Int.floor_eq_iff]
    rw [hf]
    norm_num
  have h1 : pyInt (pyFloorDiv (1257 / 10 : ℚ) 60) = 2 := by
    rw [hdiv]
    unfold pyInt
    rw [if_pos (by norm_num : (0 : ℚ) ≤ 2)]
    show ⌊(2 : ℚ)⌋ = 2
    norm_num
  have hmod : pyMod (1257 / 10 : ℚ) 60 = 57 / 10 := by
    unfold pyMod
    rw [hdiv]
    norm_num
  have h2 : pyInt (pyMod (1257 / 10 : ℚ) 60) = 5 := by
    rw [hmod]
    unfold pyInt
    rw [if_pos (by norm_num : (0 : ℚ) ≤ 57 / 10)]
    show ⌊(57 / 10 : ℚ)⌋ = 5
    norm_num [Int.floor_eq_iff]
  unfold formatTimestamp
  rw [h1, h2]
  rfl

/-- Claim C1 as stated fails on the code: segment 2 of the scenario
(`"he raises to 200"`) IS promoted to a candidate, because the number 200
matches two card patterns (`\d+` in pattern 1 and the digit-pair
pattern 4), giving it card score 2 and total score 4. -/
theorem scenario_seg2_promoted_cex :
    ¬ candidateAt scenarioSegs 1 = none := by decide

/-- Claim C1 (amended): segment 1 of the scenario is promoted with
hand-start 2, cards 2 and confidence 5/8 — and segment 2 is ALSO promoted
(hand-start 0, cards 2 from its numeric token, actions 1, confidence
1/2). -/
theorem scenario_detection_amended :
    (∃ c, candidateAt scenarioSegs 0 = some c ∧
      c.scores.hand_start = 2 ∧ c.scores.cards = 2 ∧ c.scores.actions = 0 ∧
      c.scores.context = 1 ∧ c.confidence = 5 / 8) ∧
      3 ≤ totalAt scenarioSegs 0 ∧ 1 ≤ cardsAt scenarioSegs 0 ∧
      (∃ c, candidateAt scenarioSegs 1 = some c ∧
        c.scores.hand_start = 0 ∧ c.scores.cards = 2 ∧ c.scores.actions = 1 ∧
        c.scores.context = 1 ∧ c.confidence = 1 / 2) := by
  have htot0 : totalAt scenarioSegs 0 = 5 := by decide
  have htot1 : totalAt scenarioSegs 1 = 4 := by decide
  have heq0 : candidateAt scenarioSegs 0 = some scenCand0 := (Option.some_get _).symm
  have heq1 : candidateAt scenarioSegs 1 = some scenCand1 := (Option.some_get _).symm
  obtain ⟨hc0, -, -, -, -, -⟩ := candidateAt_eq_some_facts heq0
  obtain ⟨hc1, -, -, -, -, -⟩ := candidateAt_eq_some_facts heq1
  have e0a : scenCand0.scores.hand_start = 2 := by decide
  have e0b : scenCand0.scores.cards = 2 := by decide
  have e0c : scenCand0.scores.actions = 0 := by decide
  have e0d : scenCand0.scores.context = 1 := by decide
  have e1a : scenCand1.scores.hand_start = 0 := by decide
  have e1b : scenCand1.scores.cards = 2 := by decide
  have e1c : scenCand1.scores.actions = 1 := by decide
  have e1d : scenCand1.scores.context = 1 := by decide
  refine ⟨⟨scenCand0, heq0, e0a, e0b, e0c, e0d, ?_⟩, by decide, by decide,
    ⟨scenCand1, heq1, e1a, e1b, e1c, e1d, ?_⟩⟩
  · rw [hc0]
    unfold confidenceAt
    rw [htot0]
    norm_num [ratMin]
  · rw [hc1]
    unfold confidenceAt
    rw [htot1]
    norm_num [ratMin]
